import Mathlib

/-!
Shallow embedding of `merge_scan.py` (Re-TurnScan: ADF single-sided scan PDF
merge tool), together with theorems checking the specification's claims.

Modelling conventions:
* PDF pages are elements of an arbitrary type; a page sequence is a `List`.
* File-modification times are integers (seconds); only their linear order and
  differences matter to the program.
* The watched folder is a list of `ScanFile` records carrying the attributes
  the program reads from the filesystem: full path (`str(f)`), base name
  (`f.name`), mtime (`f.stat().st_mtime`) and the result of
  `get_pdf_page_count` on the file (an `Int`, `-1` standing for unreadable).
* Python exceptions are modelled with `Except` / `Option`; subprocess and
  rasterizer outcomes are modelled as explicit outcome types.
* `sorted(..., key=mtime, reverse=True)` is Python's stable sort in
  descending key order; it is embedded as a stable insertion sort computing
  the same function.
-/

namespace ReTurnScan

/-- Configuration constant `RECENT_FILE_WINDOW_SECONDS = 120` from the source. -/
def RECENT_FILE_WINDOW_SECONDS : Int := 120

/-- Configuration constant `PAIR_WINDOW_SECONDS = 300` from the source. -/
def PAIR_WINDOW_SECONDS : Int := 300

/-- Configuration constant `MERGED_PREFIX = "merged_"` from the source (the
reserved marker that merged-output file names carry in front). -/
def MERGED_MARKER : String := "merged_"

/-! ### Merge Engine (`merge_front_back`, page-list level)

`merge_front_back` first runs `correct_pdf_pages` on both paths; the page
lists below are the two corrected page sequences those calls return.  The
source then validates equal length (raising `ValueError` naming both counts)
and interleaves the front pages with the reversed back pages:
`for front_page, back_page in zip(front_pages, reversed(back_pages)):
  writer.add_page(front_page); writer.add_page(back_page)`. -/

/-- Page interleaving of `merge_front_back`: front zipped against the
reversed back list, each pair emitted front page first. -/
def merge_pages {α : Type} (front_pages back_pages : List α) : List α :=
  (front_pages.zip back_pages.reverse).flatMap (fun pr => [pr.1, pr.2])

/-- Embedding of `merge_front_back` on the corrected page sequences.
`Except.error (m, n)` models the `ValueError` whose message names the two
page counts; the output file is written only on the `ok` path. -/
def merge_front_back {α : Type} (front_pages back_pages : List α) :
    Except (Nat × Nat) (List α) :=
  if front_pages.length ≠ back_pages.length then
    Except.error (front_pages.length, back_pages.length)
  else
    Except.ok (merge_pages front_pages back_pages)

/-! ### Orientation detector (`detect_rotation_osd`) -/

/-- Outcome of the `subprocess.run(["tesseract", ...])` call in
`detect_rotation_osd`: the tool may be absent (`FileNotFoundError`), time
out (`subprocess.TimeoutExpired`), fail some other way (any other
exception), or complete with the given stdout lines
(`result.stdout.splitlines()`). -/
inductive OSDOutcome where
  | fileNotFound
  | timeoutExpired
  | otherError
  | completed (stdout_lines : List String)
  deriving DecidableEq

/-- Embedding of Python `str.startswith`, character-wise on the decoded
characters of the two strings. -/
def strStartsWith (s marker : String) : Bool :=
  marker.toList.isPrefixOf s.toList

/-- Embedding of Python `str.split(sep)` for a one-character separator:
split at every occurrence, keeping empty groups. -/
def splitChar (sep : Char) : List Char → List (List Char)
  | [] => [[]]
  | c :: rest =>
      if c = sep then [] :: splitChar sep rest
      else
        match splitChar sep rest with
        | [] => [[c]]
        | g :: gs => (c :: g) :: gs

/-- Whitespace set of Python `str.strip()` (ASCII part). -/
def isPySpace (c : Char) : Bool :=
  c = ' ' ∨ c = '\t' ∨ c = '\n' ∨ c = '\r' ∨ c = '\x0b' ∨ c = '\x0c'

/-- Embedding of Python `str.strip()`: drop whitespace from both ends. -/
def pyStrip (l : List Char) : List Char :=
  ((l.dropWhile isPySpace).reverse.dropWhile isPySpace).reverse

/-- Digit run of Python `int()` after the first digit: ASCII digits, with
single underscores allowed between digits. -/
def pyNatDigitsAux : Nat → List Char → Option Nat
  | acc, [] => some acc
  | acc, '_' :: c :: rest =>
      if c.isDigit then pyNatDigitsAux (10 * acc + (c.toNat - 48)) rest else none
  | acc, c :: rest =>
      if c.isDigit then pyNatDigitsAux (10 * acc + (c.toNat - 48)) rest else none

/-- Digit part of Python `int()`: nonempty, starts with a digit. -/
def pyNatDigits : List Char → Option Nat
  | [] => none
  | c :: rest =>
      if c.isDigit then pyNatDigitsAux (c.toNat - 48) rest else none

/-- Embedding of Python `int(s)` on an already-stripped character list:
optional sign followed by digits; `none` models the `ValueError`. -/
def pyInt (l : List Char) : Option Int :=
  match l with
  | '+' :: rest => (pyNatDigits rest).map (fun n => (n : Int))
  | '-' :: rest => (pyNatDigits rest).map (fun n => -(n : Int))
  | _ => (pyNatDigits l).map (fun n => (n : Int))

/-- Embedding of `int(line.split(":")[1].strip())` for a stdout line:
split on `":"`, take element 1, strip, parse as `int`.  `none` models the
`ValueError` that the source catches (the element-1 access cannot fail on a
line that starts with `"Rotate:"`, but a missing element is also mapped to
`none`, matching the enclosing generic exception handler's result `0`). -/
def parseRotateAngle (line : String) : Option Int :=
  match (splitChar ':' line.toList)[1]? with
  | none => none
  | some grp => pyInt (pyStrip grp)

/-- Loop body of `detect_rotation_osd` over the stdout lines: the first
line starting with `"Rotate:"` decides the result — an unparseable value
breaks out (result `0`), a canonical angle is returned, any other angle is
logged and `0` returned; with no such line the function falls through to
`return 0`. -/
def scanRotateLines : List String → Int
  | [] => 0
  | line :: rest =>
      if strStartsWith line "Rotate:" then
        match parseRotateAngle line with
        | none => 0
        | some angle =>
            if angle = 0 ∨ angle = 90 ∨ angle = 180 ∨ angle = 270 then angle else 0
      else scanRotateLines rest

/-- Embedding of `detect_rotation_osd`: total on every subprocess outcome
(the Python function catches every exception and returns `0`). -/
def detect_rotation_osd (outcome : OSDOutcome) : Int :=
  match outcome with
  | .fileNotFound => 0
  | .timeoutExpired => 0
  | .otherError => 0
  | .completed lines => scanRotateLines lines

/-! ### Page corrector (`correct_pdf_pages`) -/

/-- Outcome of obtaining the rasterizer and converting the PDF in
`correct_pdf_pages`: the `pdf2image` import may fail (`ImportError`),
`convert_from_path` may raise, or conversion completes with a list of page
images. -/
inductive RasterOutcome (Img : Type) where
  | importError
  | convertError
  | converted (images : List Img)

/-- Embedding of `correct_pdf_pages`.  `pages` is `list(reader.pages)`;
`rotate` is pypdf's in-place `page.rotate`; `detect` is the per-image
orientation detection (`detect_rotation_osd` on the page's rasterized
image).  On either rasterizer failure the original page list is returned;
otherwise each page zipped with its image is rotated when the detected
angle is nonzero and collected into `corrected`. -/
def correct_pdf_pages {Page Img : Type} (rotate : Page → Int → Page)
    (detect : Img → Int) (pages : List Page) (raster : RasterOutcome Img) :
    List Page :=
  match raster with
  | .importError => pages
  | .convertError => pages
  | .converted images =>
      (pages.zip images).map
        (fun pi => if detect pi.2 ≠ 0 then rotate pi.1 (detect pi.2) else pi.1)

/-! ### Pair finder (`find_and_merge_pairs`) -/

/-- Attributes of one PDF file in the watched folder, as the program reads
them: `path` is `str(f)` (used in pair keys), `name` is `f.name` (used by
the candidate filters), `mtime` is `f.stat().st_mtime`, and `pageCount` is
what `get_pdf_page_count` returns for the file (`-1`, or any value `≤ 0`,
when the PDF is unreadable). -/
structure ScanFile where
  path : String
  name : String
  mtime : Int
  pageCount : Int
  deriving DecidableEq

/-- Candidate filter of `find_and_merge_pairs`: keep `f` unless its name
starts with `"."` or with `MERGED_PREFIX`. -/
def candidate_filter (f : ScanFile) : Bool :=
  !(strStartsWith f.name ".") && !(strStartsWith f.name MERGED_MARKER)

/-- Stable insertion of `f` into a list sorted by mtime in descending
order.  `f` comes from earlier in the original list than every entry of the
target, so it goes in front of the first entry that is not strictly newer
(equal mtimes keep their original relative order, matching Python's stable
sort). -/
def insertByMtimeDesc (f : ScanFile) : List ScanFile → List ScanFile
  | [] => [f]
  | g :: rest =>
      if g.mtime ≤ f.mtime then f :: g :: rest
      else g :: insertByMtimeDesc f rest

/-- Stable sort by mtime in descending order, embedding
`sorted(..., key=lambda f: f.stat().st_mtime, reverse=True)`. -/
def sortByMtimeDesc : List ScanFile → List ScanFile
  | [] => []
  | f :: rest => insertByMtimeDesc f (sortByMtimeDesc rest)

/-- The `pdf_files` list of `find_and_merge_pairs`: folder entries passing
the candidate filter, sorted by mtime descending. -/
def pdf_files (folder : List ScanFile) : List ScanFile :=
  sortByMtimeDesc (folder.filter candidate_filter)

/-- Pair Key: `frozenset([str(latest), str(candidate)])`. -/
def pair_key (a b : ScanFile) : Finset String := {a.path, b.path}

/-- Front/back assignment of `find_and_merge_pairs`: the strictly older
file (re-read mtime) becomes front, otherwise `latest` is front. -/
def front_back (latest candidate : ScanFile) : ScanFile × ScanFile :=
  if candidate.mtime < latest.mtime then (candidate, latest) else (latest, candidate)

/-- Result of one `find_and_merge_pairs` invocation: the list of
`(front, back)` pairs for which `merge_front_back` was invoked and
succeeded (each producing one merged output file), and the updated
`already_merged` set. -/
structure ScanResult where
  outputs : List (ScanFile × ScanFile)
  processed : Finset (Finset String)
  deriving DecidableEq

/-- Candidate loop of `find_and_merge_pairs` (`for candidate in
pdf_files[1:]`).  `mergeOk front back` abstracts whether the
`merge_front_back(front, back, output_path)` call succeeds or raises (its
failure depends on filesystem state outside this model); on success the
pair key is added to the set, on failure the exception is logged and the
set left unchanged. -/
def pairLoop (mergeOk : ScanFile → ScanFile → Bool) (latest : ScanFile)
    (threshold : Int) : List ScanFile → Finset (Finset String) → ScanResult
  | [], s => ⟨[], s⟩
  | c :: rest, s =>
      if c.mtime < threshold then ⟨[], s⟩
      else if pair_key latest c ∈ s then pairLoop mergeOk latest threshold rest s
      else if latest.pageCount ≤ 0 ∨ c.pageCount ≤ 0 then
        pairLoop mergeOk latest threshold rest s
      else if latest.pageCount ≠ c.pageCount then
        pairLoop mergeOk latest threshold rest s
      else if mergeOk (front_back latest c).1 (front_back latest c).2 then
        ⟨front_back latest c ::
          (pairLoop mergeOk latest threshold rest (insert (pair_key latest c) s)).outputs,
         (pairLoop mergeOk latest threshold rest (insert (pair_key latest c) s)).processed⟩
      else pairLoop mergeOk latest threshold rest s

/-- Embedding of `find_and_merge_pairs`.  `now` is `datetime.now()` in
seconds.  With fewer than two candidates, or a stale latest file
(`now - latest.mtime > RECENT_FILE_WINDOW_SECONDS`), the input set is
returned unchanged and nothing is merged; otherwise the candidate loop
runs with `threshold = latest.mtime - PAIR_WINDOW_SECONDS`. -/
def find_and_merge_pairs (mergeOk : ScanFile → ScanFile → Bool) (now : Int)
    (folder : List ScanFile) (already_merged : Finset (Finset String)) :
    ScanResult :=
  match pdf_files folder with
  | [] => ⟨[], already_merged⟩
  | [_] => ⟨[], already_merged⟩
  | latest :: c :: rest =>
      if now - latest.mtime > RECENT_FILE_WINDOW_SECONDS then ⟨[], already_merged⟩
      else pairLoop mergeOk latest (latest.mtime - PAIR_WINDOW_SECONDS) (c :: rest)
        already_merged

/-- Pair Keys of a list of merged `(front, back)` pairs, as a `Finset`. -/
def pairKeys (outs : List (ScanFile × ScanFile)) : Finset (Finset String) :=
  (outs.map fun p => pair_key p.1 p.2).toFinset

/-! ### Lemmas about the page interleaving -/

theorem flatMap_pairs_length {α : Type} (l : List (α × α)) :
    (l.flatMap fun pr => [pr.1, pr.2]).length = 2 * l.length := by
  induction l with
  | nil => rfl
  | cons p t ih =>
    rw [List.flatMap_cons, List.length_append, ih, List.length_cons]
    simp only [List.length_cons, List.length_nil, List.length_singleton]
    omega

theorem flatMap_pairs_getElem_even {α : Type} (l : List (α × α)) (i : Nat) :
    (l.flatMap fun pr => [pr.1, pr.2])[2 * i]? = l[i]?.map Prod.fst := by
  induction l generalizing i with
  | nil => simp
  | cons p t ih =>
    cases i with
    | zero => simp
    | succ j =>
      have h2 : 2 * (j + 1) = 2 * j + 1 + 1 := by omega
      simp only [List.flatMap_cons, List.cons_append, List.nil_append, h2,
        List.getElem?_cons_succ, ih]

theorem flatMap_pairs_getElem_odd {α : Type} (l : List (α × α)) (i : Nat) :
    (l.flatMap fun pr => [pr.1, pr.2])[2 * i + 1]? = l[i]?.map Prod.snd := by
  induction l generalizing i with
  | nil => simp
  | cons p t ih =>
    cases i with
    | zero => simp
    | succ j =>
      have h2 : 2 * (j + 1) + 1 = 2 * j + 1 + 1 + 1 := by omega
      simp only [List.flatMap_cons, List.cons_append, List.nil_append, h2,
        List.getElem?_cons_succ, ih]

theorem merge_pages_length {α : Type} (front_pages back_pages : List α)
    (h : front_pages.length = back_pages.length) :
    (merge_pages front_pages back_pages).length = 2 * front_pages.length := by
  unfold merge_pages
  rw [flatMap_pairs_length, List.length_zip, List.length_reverse, ← h, Nat.min_self]

theorem merge_pages_getElem_even {α : Type} (front_pages back_pages : List α)
    (h : front_pages.length = back_pages.length) (i : Nat)
    (hi : i < front_pages.length) :
    (merge_pages front_pages back_pages)[2 * i]? = front_pages[i]? := by
  have hz : i < (front_pages.zip back_pages.reverse).length := by
    rw [List.length_zip, List.length_reverse, ← h, Nat.min_self]; exact hi
  unfold merge_pages
  rw [flatMap_pairs_getElem_even, List.getElem?_eq_getElem hz, List.getElem_zip,
    Option.map_some', List.getElem?_eq_getElem hi]

theorem merge_pages_getElem_odd {α : Type} (front_pages back_pages : List α)
    (h : front_pages.length = back_pages.length) (i : Nat)
    (hi : i < front_pages.length) :
    (merge_pages front_pages back_pages)[2 * i + 1]? =
      back_pages[back_pages.length - 1 - i]? := by
  have hb : i < back_pages.length := h ▸ hi
  have hz : i < (front_pages.zip back_pages.reverse).length := by
    rw [List.length_zip, List.length_reverse, ← h, Nat.min_self]; exact hi
  have hr : i < back_pages.reverse.length := by rw [List.length_reverse]; exact hb
  unfold merge_pages
  rw [flatMap_pairs_getElem_odd, List.getElem?_eq_getElem hz, List.getElem_zip,
    Option.map_some', ← List.getElem?_eq_getElem hr, List.getElem?_reverse hb]

/-! ### Claims about the Merge Engine -/

/-- C1: for every pair of front/back page sequences of equal length `n`,
`merge_front_back` succeeds and writes an output of exactly `2 * n` pages,
ordered `front[0], back[n-1], front[1], back[n-2], …, front[n-1], back[0]`
(position `2*i` holds `front[i]` and position `2*i+1` holds
`back[n-1-i]`). -/
theorem merge_front_back_interleaving {α : Type} (front_pages back_pages : List α)
    (h : front_pages.length = back_pages.length) :
    merge_front_back front_pages back_pages =
      Except.ok (merge_pages front_pages back_pages) ∧
    (merge_pages front_pages back_pages).length = 2 * front_pages.length ∧
    ∀ i, i < front_pages.length →
      (merge_pages front_pages back_pages)[2 * i]? = front_pages[i]? ∧
      (merge_pages front_pages back_pages)[2 * i + 1]? =
        back_pages[back_pages.length - 1 - i]? := by
  refine ⟨?_, merge_pages_length _ _ h, fun i hi =>
    ⟨merge_pages_getElem_even _ _ h i hi, merge_pages_getElem_odd _ _ h i hi⟩⟩
  simp [merge_front_back, h]

/-- Witness for C1 at front `[10, 20, 30]`, back `[60, 50, 40]`. -/
theorem merge_front_back_interleaving_witness :
    merge_front_back [10, 20, 30] [60, 50, 40] =
      Except.ok (merge_pages [10, 20, 30] [60, 50, 40]) ∧
    (merge_pages [10, 20, 30] [60, 50, 40]).length = 2 * 3 ∧
    (merge_pages [10, 20, 30] [60, 50, 40])[2 * 1]? = some 20 ∧
    (merge_pages [10, 20, 30] [60, 50, 40])[2 * 1 + 1]? = some 50 := by
  have h := merge_front_back_interleaving [10, 20, 30] [60, 50, 40] (by decide)
  refine ⟨h.1, h.2.1, ?_, ?_⟩
  · rw [(h.2.2 1 (by decide)).1]; rfl
  · rw [(h.2.2 1 (by decide)).2]; rfl

/-- C2: whenever the two corrected page sequences have unequal lengths,
`merge_front_back` fails with the page-count-mismatch error naming both
counts (the `ValueError` of the source), and no output is produced on that
path (the `error` result carries no page list; the source raises before
`open(output_path, "wb")`). -/
theorem merge_front_back_mismatch_error {α : Type} (front_pages back_pages : List α)
    (h : front_pages.length ≠ back_pages.length) :
    merge_front_back front_pages back_pages =
      Except.error (front_pages.length, back_pages.length) := by
  simp [merge_front_back, h]

/-- Witness for C2 at front `[1, 2]`, back `[3]`. -/
theorem merge_front_back_mismatch_error_witness :
    merge_front_back [1, 2] [3] = Except.error (2, 1) :=
  merge_front_back_mismatch_error [1, 2] [3] (by decide)

/-! ### Claims about the orientation detector -/

theorem scanRotateLines_append_of_no_rotate (pre rest : List String)
    (h : ∀ l ∈ pre, strStartsWith l "Rotate:" = false) :
    scanRotateLines (pre ++ rest) = scanRotateLines rest := by
  induction pre with
  | nil => rfl
  | cons a t ih =>
    have ha : strStartsWith a "Rotate:" = false := h a (by simp)
    rw [List.cons_append, scanRotateLines, if_neg (by simp [ha])]
    exact ih (fun l hl => h l (by simp [hl]))

theorem scanRotateLines_cons_rotate (line : String) (rest : List String)
    (hline : strStartsWith line "Rotate:" = true) :
    scanRotateLines (line :: rest) =
      match parseRotateAngle line with
      | none => 0
      | some angle =>
          if angle = 0 ∨ angle = 90 ∨ angle = 180 ∨ angle = 270 then angle
          else 0 := by
  rw [scanRotateLines, if_pos hline]

/-- C7: `detect_rotation_osd` returns exactly `0` when the tool is absent,
times out, fails otherwise, produces no `Rotate:` line, the first
`Rotate:` line's value is unparseable, or the parsed angle lies outside
`{0, 90, 180, 270}`; it returns the parsed value itself exactly for angles
in that set.  (The embedding is a total function: every failure mode of
the Python code is caught and mapped to a return value, never a raise.) -/
theorem detect_rotation_osd_contract :
    detect_rotation_osd .fileNotFound = 0 ∧
    detect_rotation_osd .timeoutExpired = 0 ∧
    detect_rotation_osd .otherError = 0 ∧
    (∀ lines, (∀ l ∈ lines, strStartsWith l "Rotate:" = false) →
      detect_rotation_osd (.completed lines) = 0) ∧
    (∀ pre line rest, (∀ l ∈ pre, strStartsWith l "Rotate:" = false) →
      strStartsWith line "Rotate:" = true →
      (parseRotateAngle line = none →
        detect_rotation_osd (.completed (pre ++ line :: rest)) = 0) ∧
      (∀ angle, parseRotateAngle line = some angle →
        (¬(angle = 0 ∨ angle = 90 ∨ angle = 180 ∨ angle = 270) →
          detect_rotation_osd (.completed (pre ++ line :: rest)) = 0) ∧
        ((angle = 0 ∨ angle = 90 ∨ angle = 180 ∨ angle = 270) →
          detect_rotation_osd (.completed (pre ++ line :: rest)) = angle))) := by
  refine ⟨rfl, rfl, rfl, ?_, ?_⟩
  · intro lines h
    show scanRotateLines lines = 0
    have := scanRotateLines_append_of_no_rotate lines [] h
    rw [List.append_nil] at this
    exact this.trans rfl
  · intro pre line rest hpre hline
    have hbase : detect_rotation_osd (.completed (pre ++ line :: rest)) =
        scanRotateLines (line :: rest) :=
      scanRotateLines_append_of_no_rotate pre (line :: rest) hpre
    constructor
    · intro hparse
      rw [hbase, scanRotateLines_cons_rotate line rest hline, hparse]
    · intro angle hparse
      constructor
      · intro hout
        rw [hbase, scanRotateLines_cons_rotate line rest hline, hparse]
        exact if_neg hout
      · intro hin
        rw [hbase, scanRotateLines_cons_rotate line rest hline, hparse]
        exact if_pos hin

/-- Witness for C7: a warning line followed by `"Rotate: 180"` yields
`180`; the remaining failure branches at concrete inputs. -/
theorem detect_rotation_osd_contract_witness :
    detect_rotation_osd (.completed (["Warning: low quality"] ++
      "Rotate: 180" :: ["Script: Latin"])) = 180 ∧
    detect_rotation_osd (.completed (["Warning: low quality"] ++
      "Rotate: 45" :: [])) = 0 ∧
    detect_rotation_osd (.completed (["Page 1"] ++ "Rotate: x" :: [])) = 0 ∧
    detect_rotation_osd (.completed ["Page 1", "Script: Latin"]) = 0 ∧
    detect_rotation_osd .fileNotFound = 0 := by
  have h := detect_rotation_osd_contract
  refine ⟨?_, ?_, ?_, ?_, h.1⟩
  · exact ((h.2.2.2.2 ["Warning: low quality"] "Rotate: 180" ["Script: Latin"]
      (by decide) (by decide)).2 180 (by decide)).2 (by decide)
  · exact ((h.2.2.2.2 ["Warning: low quality"] "Rotate: 45" []
      (by decide) (by decide)).2 45 (by decide)).1 (by decide)
  · exact (h.2.2.2.2 ["Page 1"] "Rotate: x" [] (by decide) (by decide)).1 (by decide)
  · exact h.2.2.2.1 ["Page 1", "Script: Latin"] (by decide)

/-! ### Claim about the page corrector -/

/-- C8: when the rasterizer import fails or its conversion raises,
`correct_pdf_pages` returns the original, uncorrected page sequence (same
pages, hence same length); the fallback is a plain return of the page list
already read, so it cannot raise (the embedding is total). -/
theorem correct_pdf_pages_fallback {Page Img : Type} (rotate : Page → Int → Page)
    (detect : Img → Int) (pages : List Page) :
    correct_pdf_pages rotate detect pages RasterOutcome.importError = pages ∧
    correct_pdf_pages rotate detect pages RasterOutcome.convertError = pages :=
  ⟨rfl, rfl⟩

/-! ### Lemmas about the pair finder -/

theorem mem_insertByMtimeDesc {f x : ScanFile} {l : List ScanFile} :
    x ∈ insertByMtimeDesc f l ↔ x = f ∨ x ∈ l := by
  induction l with
  | nil => simp [insertByMtimeDesc]
  | cons g t ih =>
    rw [insertByMtimeDesc]
    split
    · simp
    · simp only [List.mem_cons, ih]
      tauto

theorem mem_sortByMtimeDesc {x : ScanFile} {l : List ScanFile} :
    x ∈ sortByMtimeDesc l ↔ x ∈ l := by
  induction l with
  | nil => simp [sortByMtimeDesc]
  | cons f t ih => rw [sortByMtimeDesc]; simp [mem_insertByMtimeDesc, ih]

theorem mem_pdf_files {x : ScanFile} {folder : List ScanFile} :
    x ∈ pdf_files folder ↔ x ∈ folder ∧ candidate_filter x = true := by
  rw [pdf_files, mem_sortByMtimeDesc, List.mem_filter]

theorem pairLoop_nil (mergeOk : ScanFile → ScanFile → Bool) (latest : ScanFile)
    (threshold : Int) (s : Finset (Finset String)) :
    pairLoop mergeOk latest threshold [] s = ⟨[], s⟩ := rfl

theorem pairLoop_cons (mergeOk : ScanFile → ScanFile → Bool) (latest : ScanFile)
    (threshold : Int) (c : ScanFile) (rest : List ScanFile)
    (s : Finset (Finset String)) :
    pairLoop mergeOk latest threshold (c :: rest) s =
      if c.mtime < threshold then ⟨[], s⟩
      else if pair_key latest c ∈ s then pairLoop mergeOk latest threshold rest s
      else if latest.pageCount ≤ 0 ∨ c.pageCount ≤ 0 then
        pairLoop mergeOk latest threshold rest s
      else if latest.pageCount ≠ c.pageCount then
        pairLoop mergeOk latest threshold rest s
      else if mergeOk (front_back latest c).1 (front_back latest c).2 then
        ⟨front_back latest c ::
          (pairLoop mergeOk latest threshold rest (insert (pair_key latest c) s)).outputs,
         (pairLoop mergeOk latest threshold rest (insert (pair_key latest c) s)).processed⟩
      else pairLoop mergeOk latest threshold rest s := rfl

theorem pair_key_comm (a b : ScanFile) : pair_key a b = pair_key b a :=
  Finset.pair_comm a.path b.path

theorem pair_key_front_back (a b : ScanFile) :
    pair_key (front_back a b).1 (front_back a b).2 = pair_key a b := by
  rw [front_back]
  split
  · exact pair_key_comm b a
  · rfl

theorem front_back_fst_mtime_le (a b : ScanFile) :
    (front_back a b).1.mtime ≤ (front_back a b).2.mtime := by
  rw [front_back]
  split
  · next h => exact le_of_lt h
  · next h => exact le_of_not_lt h

theorem front_back_of_not_lt {a b : ScanFile} (h : ¬ b.mtime < a.mtime) :
    front_back a b = (a, b) := if_neg h

theorem pairKeys_nil : pairKeys [] = ∅ := rfl

theorem pairKeys_cons (p : ScanFile × ScanFile) (outs : List (ScanFile × ScanFile)) :
    pairKeys (p :: outs) = insert (pair_key p.1 p.2) (pairKeys outs) := by
  simp [pairKeys]

/-- Every pair produced by the candidate loop pairs `latest` (via
`front_back`) with a candidate from the walked list whose mtime is not
below the threshold. -/
theorem pairLoop_outputs_mem (mergeOk : ScanFile → ScanFile → Bool)
    (latest : ScanFile) (threshold : Int) (l : List ScanFile)
    (s : Finset (Finset String)) :
    ∀ p ∈ (pairLoop mergeOk latest threshold l s).outputs,
      ∃ c ∈ l, ¬ c.mtime < threshold ∧ p = front_back latest c := by
  induction l generalizing s with
  | nil => intro p hp; simp [pairLoop_nil] at hp
  | cons c rest ih =>
    intro p hp
    rw [pairLoop_cons] at hp
    split_ifs at hp with h1 h2 h3 h4 h5
    · simp at hp
    · obtain ⟨d, hd, hth, hfb⟩ := ih s p hp
      exact ⟨d, List.mem_cons_of_mem _ hd, hth, hfb⟩
    · obtain ⟨d, hd, hth, hfb⟩ := ih s p hp
      exact ⟨d, List.mem_cons_of_mem _ hd, hth, hfb⟩
    · obtain ⟨d, hd, hth, hfb⟩ := ih s p hp
      exact ⟨d, List.mem_cons_of_mem _ hd, hth, hfb⟩
    · rcases List.mem_cons.mp hp with hfb | hp
      · exact ⟨c, List.mem_cons_self _ _, h1, hfb⟩
      · obtain ⟨d, hd, hth, hfb⟩ := ih (insert (pair_key latest c) s) p hp
        exact ⟨d, List.mem_cons_of_mem _ hd, hth, hfb⟩
    · obtain ⟨d, hd, hth, hfb⟩ := ih s p hp
      exact ⟨d, List.mem_cons_of_mem _ hd, hth, hfb⟩

/-- The processed set returned by the candidate loop is the input set plus
exactly the Pair Keys of the successfully merged pairs. -/
theorem pairLoop_processed_eq (mergeOk : ScanFile → ScanFile → Bool)
    (latest : ScanFile) (threshold : Int) (l : List ScanFile)
    (s : Finset (Finset String)) :
    (pairLoop mergeOk latest threshold l s).processed =
      s ∪ pairKeys (pairLoop mergeOk latest threshold l s).outputs := by
  induction l generalizing s with
  | nil => simp [pairLoop_nil, pairKeys_nil]
  | cons c rest ih =>
    rw [pairLoop_cons]
    split_ifs with h1 h2 h3 h4 h5
    · simp [pairKeys_nil]
    · exact ih s
    · exact ih s
    · exact ih s
    · rw [ih (insert (pair_key latest c) s), pairKeys_cons, pair_key_front_back,
        Finset.insert_union, Finset.union_insert]
    · exact ih s

theorem pairLoop_subset_processed (mergeOk : ScanFile → ScanFile → Bool)
    (latest : ScanFile) (threshold : Int) (l : List ScanFile)
    (s : Finset (Finset String)) :
    s ⊆ (pairLoop mergeOk latest threshold l s).processed := by
  rw [pairLoop_processed_eq]
  exact Finset.subset_union_left

/-- Re-running the candidate loop on the same list, starting from the
processed set the first run returned, merges nothing and leaves the set
unchanged. -/
theorem pairLoop_stable (mergeOk : ScanFile → ScanFile → Bool)
    (latest : ScanFile) (threshold : Int) (l : List ScanFile)
    (s : Finset (Finset String)) :
    pairLoop mergeOk latest threshold l
        (pairLoop mergeOk latest threshold l s).processed =
      ⟨[], (pairLoop mergeOk latest threshold l s).processed⟩ := by
  induction l generalizing s with
  | nil => rfl
  | cons c rest ih =>
    by_cases h1 : c.mtime < threshold
    · have hin : pairLoop mergeOk latest threshold (c :: rest) s = ⟨[], s⟩ := by
        rw [pairLoop_cons, if_pos h1]
      rw [hin]
      show pairLoop mergeOk latest threshold (c :: rest) s = ⟨[], s⟩
      exact hin
    · by_cases h2 : pair_key latest c ∈ s
      · have hin : pairLoop mergeOk latest threshold (c :: rest) s =
            pairLoop mergeOk latest threshold rest s := by
          rw [pairLoop_cons, if_neg h1, if_pos h2]
        have h2P : pair_key latest c ∈
            (pairLoop mergeOk latest threshold rest s).processed :=
          pairLoop_subset_processed mergeOk latest threshold rest s h2
        rw [hin, pairLoop_cons, if_neg h1, if_pos h2P]
        exact ih s
      · by_cases h3 : latest.pageCount ≤ 0 ∨ c.pageCount ≤ 0
        · have hin : pairLoop mergeOk latest threshold (c :: rest) s =
              pairLoop mergeOk latest threshold rest s := by
            rw [pairLoop_cons, if_neg h1, if_neg h2, if_pos h3]
          rw [hin, pairLoop_cons, if_neg h1]
          by_cases h2P : pair_key latest c ∈
              (pairLoop mergeOk latest threshold rest s).processed
          · rw [if_pos h2P]; exact ih s
          · rw [if_neg h2P, if_pos h3]; exact ih s
        · by_cases h4 : latest.pageCount ≠ c.pageCount
          · have hin : pairLoop mergeOk latest threshold (c :: rest) s =
                pairLoop mergeOk latest threshold rest s := by
              rw [pairLoop_cons, if_neg h1, if_neg h2, if_neg h3, if_pos h4]
            rw [hin, pairLoop_cons, if_neg h1]
            by_cases h2P : pair_key latest c ∈
                (pairLoop mergeOk latest threshold rest s).processed
            · rw [if_pos h2P]; exact ih s
            · rw [if_neg h2P, if_neg h3, if_pos h4]; exact ih s
          · by_cases h5 : mergeOk (front_back latest c).1 (front_back latest c).2
            · have hin : pairLoop mergeOk latest threshold (c :: rest) s =
                  ⟨front_back latest c ::
                    (pairLoop mergeOk latest threshold rest
                      (insert (pair_key latest c) s)).outputs,
                   (pairLoop mergeOk latest threshold rest
                      (insert (pair_key latest c) s)).processed⟩ := by
                rw [pairLoop_cons, if_neg h1, if_neg h2, if_neg h3, if_neg h4,
                  if_pos h5]
              have h2P : pair_key latest c ∈
                  (pairLoop mergeOk latest threshold rest
                    (insert (pair_key latest c) s)).processed :=
                pairLoop_subset_processed mergeOk latest threshold rest
                  (insert (pair_key latest c) s) (Finset.mem_insert_self _ _)
              rw [hin]
              show pairLoop mergeOk latest threshold (c :: rest)
                  (pairLoop mergeOk latest threshold rest
                    (insert (pair_key latest c) s)).processed = _
              rw [pairLoop_cons, if_neg h1, if_pos h2P]
              exact ih (insert (pair_key latest c) s)
            · have hin : pairLoop mergeOk latest threshold (c :: rest) s =
                  pairLoop mergeOk latest threshold rest s := by
                rw [pairLoop_cons, if_neg h1, if_neg h2, if_neg h3, if_neg h4,
                  if_neg h5]
              rw [hin, pairLoop_cons, if_neg h1]
              by_cases h2P : pair_key latest c ∈
                  (pairLoop mergeOk latest threshold rest s).processed
              · rw [if_pos h2P]; exact ih s
              · rw [if_neg h2P, if_neg h3, if_neg h4, if_neg h5]; exact ih s

theorem find_eq_nil (mergeOk : ScanFile → ScanFile → Bool) (now : Int)
    (folder : List ScanFile) (s : Finset (Finset String))
    (h : pdf_files folder = []) :
    find_and_merge_pairs mergeOk now folder s = ⟨[], s⟩ := by
  unfold find_and_merge_pairs
  rw [h]

theorem find_eq_single (mergeOk : ScanFile → ScanFile → Bool) (now : Int)
    (folder : List ScanFile) (s : Finset (Finset String)) (x : ScanFile)
    (h : pdf_files folder = [x]) :
    find_and_merge_pairs mergeOk now folder s = ⟨[], s⟩ := by
  unfold find_and_merge_pairs
  rw [h]

theorem find_eq_cons (mergeOk : ScanFile → ScanFile → Bool) (now : Int)
    (folder : List ScanFile) (s : Finset (Finset String))
    (latest c : ScanFile) (rest : List ScanFile)
    (h : pdf_files folder = latest :: c :: rest) :
    find_and_merge_pairs mergeOk now folder s =
      if now - latest.mtime > RECENT_FILE_WINDOW_SECONDS then ⟨[], s⟩
      else pairLoop mergeOk latest (latest.mtime - PAIR_WINDOW_SECONDS)
        (c :: rest) s := by
  unfold find_and_merge_pairs
  rw [h]

theorem front_back_components (a b : ScanFile) :
    ((front_back a b).1 = a ∨ (front_back a b).1 = b) ∧
    ((front_back a b).2 = a ∨ (front_back a b).2 = b) := by
  rw [front_back]
  split <;> simp

/-! ### Claims about the pair finder -/

/-- C9: the Pair Keys added to the processed set by one invocation of
`find_and_merge_pairs` are exactly the keys of the pairs whose merge
succeeded (the recorded outputs): the returned set is the input set united
with precisely those keys, so a pair whose merge failed (caught and
logged) is left unmarked and stays retry-eligible. -/
theorem processed_set_adds_exactly_successful_pairs
    (mergeOk : ScanFile → ScanFile → Bool) (now : Int)
    (folder : List ScanFile) (s : Finset (Finset String)) :
    (find_and_merge_pairs mergeOk now folder s).processed =
      s ∪ pairKeys (find_and_merge_pairs mergeOk now folder s).outputs := by
  rcases hL : pdf_files folder with - | ⟨latest, - | ⟨c, rest⟩⟩
  · rw [find_eq_nil mergeOk now folder s hL]
    simp [pairKeys_nil]
  · rw [find_eq_single mergeOk now folder s latest hL]
    simp [pairKeys_nil]
  · rw [find_eq_cons mergeOk now folder s latest c rest hL]
    split_ifs with h
    · simp [pairKeys_nil]
    · exact pairLoop_processed_eq mergeOk latest
        (latest.mtime - PAIR_WINDOW_SECONDS) (c :: rest) s

/-- C3: running `find_and_merge_pairs` a second time on an unchanged
folder, at the same or a later time, with the processed set returned by
the first run, merges nothing (no new output files) and returns the very
same set — in particular a set of the same size. -/
theorem find_and_merge_pairs_idempotent (mergeOk : ScanFile → ScanFile → Bool)
    (now1 now2 : Int) (folder : List ScanFile) (s : Finset (Finset String))
    (h : now1 ≤ now2) :
    (find_and_merge_pairs mergeOk now2 folder
        (find_and_merge_pairs mergeOk now1 folder s).processed).outputs = [] ∧
    (find_and_merge_pairs mergeOk now2 folder
        (find_and_merge_pairs mergeOk now1 folder s).processed).processed =
      (find_and_merge_pairs mergeOk now1 folder s).processed ∧
    (find_and_merge_pairs mergeOk now2 folder
        (find_and_merge_pairs mergeOk now1 folder s).processed).processed.card =
      (find_and_merge_pairs mergeOk now1 folder s).processed.card := by
  suffices hs : find_and_merge_pairs mergeOk now2 folder
      (find_and_merge_pairs mergeOk now1 folder s).processed =
      ⟨[], (find_and_merge_pairs mergeOk now1 folder s).processed⟩ by
    rw [hs]
    exact ⟨rfl, rfl, rfl⟩
  rcases hL : pdf_files folder with - | ⟨latest, - | ⟨c, rest⟩⟩
  · rw [find_eq_nil mergeOk now2 folder _ hL]
  · rw [find_eq_single mergeOk now2 folder _ latest hL]
  · by_cases hstale1 : now1 - latest.mtime > RECENT_FILE_WINDOW_SECONDS
    · have hstale2 : now2 - latest.mtime > RECENT_FILE_WINDOW_SECONDS := by omega
      rw [find_eq_cons mergeOk now1 folder s latest c rest hL, if_pos hstale1,
        find_eq_cons mergeOk now2 folder _ latest c rest hL, if_pos hstale2]
    · rw [find_eq_cons mergeOk now1 folder s latest c rest hL, if_neg hstale1,
        find_eq_cons mergeOk now2 folder _ latest c rest hL]
      by_cases hstale2 : now2 - latest.mtime > RECENT_FILE_WINDOW_SECONDS
      · rw [if_pos hstale2]
      · rw [if_neg hstale2]
        exact pairLoop_stable mergeOk latest
          (latest.mtime - PAIR_WINDOW_SECONDS) (c :: rest) s

/-- C4: a file whose name begins with `"."` or with the merged-output
marker `"merged_"` never passes the candidate filter — it is not in
`pdf_files` for any folder state, whatever its mtime or page count — and
consequently never occurs in any merged pair an invocation produces. -/
theorem hidden_and_merged_never_candidates (mergeOk : ScanFile → ScanFile → Bool)
    (now : Int) (folder : List ScanFile) (s : Finset (Finset String))
    (f : ScanFile)
    (hf : strStartsWith f.name "." = true ∨
      strStartsWith f.name MERGED_MARKER = true) :
    f ∉ pdf_files folder ∧
    ∀ p ∈ (find_and_merge_pairs mergeOk now folder s).outputs,
      p.1 ≠ f ∧ p.2 ≠ f := by
  have hcf : candidate_filter f = false := by
    rw [candidate_filter]
    rcases hf with h | h <;> simp [h]
  have hnot : f ∉ pdf_files folder := by
    rw [mem_pdf_files]
    rintro ⟨-, hc⟩
    rw [hcf] at hc
    exact Bool.false_ne_true hc
  refine ⟨hnot, ?_⟩
  intro p hp
  rcases hL : pdf_files folder with - | ⟨latest, - | ⟨c, rest⟩⟩
  · rw [find_eq_nil mergeOk now folder s hL] at hp
    simp at hp
  · rw [find_eq_single mergeOk now folder s latest hL] at hp
    simp at hp
  · rw [find_eq_cons mergeOk now folder s latest c rest hL] at hp
    split_ifs at hp with hst
    · simp at hp
    · obtain ⟨d, hd, -, hfb⟩ := pairLoop_outputs_mem mergeOk latest
        (latest.mtime - PAIR_WINDOW_SECONDS) (c :: rest) s p hp
      have hlat_mem : latest ∈ pdf_files folder := by
        rw [hL]; exact List.mem_cons_self _ _
      have hd_mem : d ∈ pdf_files folder := by
        rw [hL]; exact List.mem_cons_of_mem _ hd
      subst hfb
      obtain ⟨h1, h2⟩ := front_back_components latest d
      constructor
      · rcases h1 with h | h <;> rw [h] <;> rintro rfl <;> exact hnot (by assumption)
      · rcases h2 with h | h <;> rw [h] <;> rintro rfl <;> exact hnot (by assumption)

/-- C5: no merged pair ever involves a file whose mtime lies strictly
before `latest.mtime - PAIR_WINDOW_SECONDS` (both members of every output
pair are at or above the threshold), and the candidate walk stops at the
first candidate older than the threshold, merging nothing further and
leaving the set untouched from that point on. -/
theorem stale_candidates_never_paired (mergeOk : ScanFile → ScanFile → Bool)
    (now : Int) (folder : List ScanFile) (s : Finset (Finset String))
    (latest : ScanFile) (rest : List ScanFile)
    (hL : pdf_files folder = latest :: rest) :
    (∀ p ∈ (find_and_merge_pairs mergeOk now folder s).outputs,
      latest.mtime - PAIR_WINDOW_SECONDS ≤ p.1.mtime ∧
      latest.mtime - PAIR_WINDOW_SECONDS ≤ p.2.mtime) ∧
    (∀ (c : ScanFile) (post : List ScanFile) (s2 : Finset (Finset String)),
      c.mtime < latest.mtime - PAIR_WINDOW_SECONDS →
      pairLoop mergeOk latest (latest.mtime - PAIR_WINDOW_SECONDS) (c :: post) s2 =
        ⟨[], s2⟩) := by
  constructor
  · intro p hp
    rcases rest with - | ⟨c, rest⟩
    · rw [find_eq_single mergeOk now folder s latest hL] at hp
      simp at hp
    · rw [find_eq_cons mergeOk now folder s latest c rest hL] at hp
      split_ifs at hp with hst
      · simp at hp
      · obtain ⟨d, -, hth, hfb⟩ := pairLoop_outputs_mem mergeOk latest
          (latest.mtime - PAIR_WINDOW_SECONDS) (c :: rest) s p hp
        have hd_mtime : latest.mtime - PAIR_WINDOW_SECONDS ≤ d.mtime :=
          le_of_not_lt hth
        have hP : PAIR_WINDOW_SECONDS = 300 := rfl
        have hlat : latest.mtime - PAIR_WINDOW_SECONDS ≤ latest.mtime := by omega
        subst hfb
        obtain ⟨h1, h2⟩ := front_back_components latest d
        constructor
        · rcases h1 with h | h <;> rw [h] <;> assumption
        · rcases h2 with h | h <;> rw [h] <;> assumption
  · intro c post s2 hc
    rw [pairLoop_cons, if_pos hc]

/-- C6: in every merged pair the front member's mtime is at most the back
member's: whenever the two files' mtimes differ, the chronologically older
one is the front and the newer one the back, independently of which of the
two was `latest` in the scan order. -/
theorem merged_front_not_newer_than_back (mergeOk : ScanFile → ScanFile → Bool)
    (now : Int) (folder : List ScanFile) (s : Finset (Finset String)) :
    ∀ p ∈ (find_and_merge_pairs mergeOk now folder s).outputs,
      p.1.mtime ≤ p.2.mtime := by
  intro p hp
  rcases hL : pdf_files folder with - | ⟨latest, - | ⟨c, rest⟩⟩
  · rw [find_eq_nil mergeOk now folder s hL] at hp
    simp at hp
  · rw [find_eq_single mergeOk now folder s latest hL] at hp
    simp at hp
  · rw [find_eq_cons mergeOk now folder s latest c rest hL] at hp
    split_ifs at hp with hst
    · simp at hp
    · obtain ⟨d, -, -, hfb⟩ := pairLoop_outputs_mem mergeOk latest
        (latest.mtime - PAIR_WINDOW_SECONDS) (c :: rest) s p hp
      rw [hfb]
      exact front_back_fst_mtime_le latest d

/-- C10: when a merged pair's two mtimes are exactly equal,
`find_and_merge_pairs` assigned `latest` (the head of the sorted candidate
list) as front and the candidate as back — the tie goes to the `else`
branch of the front/back comparison. -/
theorem equal_mtime_front_is_latest (mergeOk : ScanFile → ScanFile → Bool)
    (now : Int) (folder : List ScanFile) (s : Finset (Finset String))
    (latest : ScanFile) (rest : List ScanFile)
    (hL : pdf_files folder = latest :: rest) :
    ∀ p ∈ (find_and_merge_pairs mergeOk now folder s).outputs,
      p.1.mtime = p.2.mtime → p.1 = latest ∧ p.2 ∈ rest := by
  intro p hp heq
  rcases rest with - | ⟨c, rest'⟩
  · rw [find_eq_single mergeOk now folder s latest hL] at hp
    simp at hp
  · rw [find_eq_cons mergeOk now folder s latest c rest' hL] at hp
    split_ifs at hp with hst
    · simp at hp
    · obtain ⟨d, hd, -, hfb⟩ := pairLoop_outputs_mem mergeOk latest
        (latest.mtime - PAIR_WINDOW_SECONDS) (c :: rest') s p hp
      subst hfb
      by_cases hlt : d.mtime < latest.mtime
      · rw [front_back, if_pos hlt] at heq
        exact absurd heq (ne_of_lt hlt)
      · rw [front_back_of_not_lt hlt]
        exact ⟨rfl, hd⟩

/-! ### Witnesses at concrete folder states -/

/-- Witness for C3: two fresh 2-page files, first run at 1060, second at
1070, starting from the empty processed set. -/
theorem find_and_merge_pairs_idempotent_witness :
    (find_and_merge_pairs (fun _ _ => true) 1070
        [⟨"/w/b.pdf", "b.pdf", 940, 2⟩, ⟨"/w/a.pdf", "a.pdf", 1000, 2⟩]
        (find_and_merge_pairs (fun _ _ => true) 1060
          [⟨"/w/b.pdf", "b.pdf", 940, 2⟩, ⟨"/w/a.pdf", "a.pdf", 1000, 2⟩]
          ∅).processed).outputs = [] ∧
    (find_and_merge_pairs (fun _ _ => true) 1070
        [⟨"/w/b.pdf", "b.pdf", 940, 2⟩, ⟨"/w/a.pdf", "a.pdf", 1000, 2⟩]
        (find_and_merge_pairs (fun _ _ => true) 1060
          [⟨"/w/b.pdf", "b.pdf", 940, 2⟩, ⟨"/w/a.pdf", "a.pdf", 1000, 2⟩]
          ∅).processed).processed =
      (find_and_merge_pairs (fun _ _ => true) 1060
        [⟨"/w/b.pdf", "b.pdf", 940, 2⟩, ⟨"/w/a.pdf", "a.pdf", 1000, 2⟩]
        ∅).processed ∧
    (find_and_merge_pairs (fun _ _ => true) 1070
        [⟨"/w/b.pdf", "b.pdf", 940, 2⟩, ⟨"/w/a.pdf", "a.pdf", 1000, 2⟩]
        (find_and_merge_pairs (fun _ _ => true) 1060
          [⟨"/w/b.pdf", "b.pdf", 940, 2⟩, ⟨"/w/a.pdf", "a.pdf", 1000, 2⟩]
          ∅).processed).processed.card =
      (find_and_merge_pairs (fun _ _ => true) 1060
        [⟨"/w/b.pdf", "b.pdf", 940, 2⟩, ⟨"/w/a.pdf", "a.pdf", 1000, 2⟩]
        ∅).processed.card :=
  find_and_merge_pairs_idempotent (fun _ _ => true) 1060 1070
    [⟨"/w/b.pdf", "b.pdf", 940, 2⟩, ⟨"/w/a.pdf", "a.pdf", 1000, 2⟩] ∅ (by decide)

/-- Witness for C4: a hidden file in a folder together with a fresh merged
pair formed from the two clean files. -/
theorem hidden_and_merged_never_candidates_witness :
    (⟨"/w/.h.pdf", ".h.pdf", 1000, 2⟩ : ScanFile) ∉ pdf_files
      [⟨"/w/b.pdf", "b.pdf", 940, 2⟩, ⟨"/w/.h.pdf", ".h.pdf", 1000, 2⟩,
       ⟨"/w/a.pdf", "a.pdf", 1000, 2⟩,
       ⟨"/w/merged_x.pdf", "merged_x.pdf", 1000, 2⟩] ∧
    ((⟨"/w/b.pdf", "b.pdf", 940, 2⟩ : ScanFile),
      (⟨"/w/a.pdf", "a.pdf", 1000, 2⟩ : ScanFile)).1 ≠
        ⟨"/w/.h.pdf", ".h.pdf", 1000, 2⟩ ∧
    ((⟨"/w/b.pdf", "b.pdf", 940, 2⟩ : ScanFile),
      (⟨"/w/a.pdf", "a.pdf", 1000, 2⟩ : ScanFile)).2 ≠
        ⟨"/w/.h.pdf", ".h.pdf", 1000, 2⟩ := by
  have h := hidden_and_merged_never_candidates (fun _ _ => true) 1060
    [⟨"/w/b.pdf", "b.pdf", 940, 2⟩, ⟨"/w/.h.pdf", ".h.pdf", 1000, 2⟩,
     ⟨"/w/a.pdf", "a.pdf", 1000, 2⟩,
     ⟨"/w/merged_x.pdf", "merged_x.pdf", 1000, 2⟩] ∅
    ⟨"/w/.h.pdf", ".h.pdf", 1000, 2⟩ (Or.inl (by decide))
  exact ⟨h.1, h.2
    (⟨"/w/b.pdf", "b.pdf", 940, 2⟩, ⟨"/w/a.pdf", "a.pdf", 1000, 2⟩) (by decide)⟩

/-- Witness for C5: latest at mtime 1000, one in-window candidate at 940,
one stale candidate at 600 (below the threshold 700). -/
theorem stale_candidates_never_paired_witness :
    ((1000 : Int) - PAIR_WINDOW_SECONDS ≤
        ((⟨"/w/b.pdf", "b.pdf", 940, 2⟩ : ScanFile),
          (⟨"/w/a.pdf", "a.pdf", 1000, 2⟩ : ScanFile)).1.mtime ∧
      (1000 : Int) - PAIR_WINDOW_SECONDS ≤
        ((⟨"/w/b.pdf", "b.pdf", 940, 2⟩ : ScanFile),
          (⟨"/w/a.pdf", "a.pdf", 1000, 2⟩ : ScanFile)).2.mtime) ∧
    pairLoop (fun _ _ => true) ⟨"/w/a.pdf", "a.pdf", 1000, 2⟩
      ((1000 : Int) - PAIR_WINDOW_SECONDS) [⟨"/w/c.pdf", "c.pdf", 600, 2⟩] ∅ =
      ⟨[], ∅⟩ := by
  have h := stale_candidates_never_paired (fun _ _ => true) 1060
    [⟨"/w/b.pdf", "b.pdf", 940, 2⟩, ⟨"/w/c.pdf", "c.pdf", 600, 2⟩,
     ⟨"/w/a.pdf", "a.pdf", 1000, 2⟩] ∅
    ⟨"/w/a.pdf", "a.pdf", 1000, 2⟩
    [⟨"/w/b.pdf", "b.pdf", 940, 2⟩, ⟨"/w/c.pdf", "c.pdf", 600, 2⟩] (by decide)
  exact ⟨h.1 (⟨"/w/b.pdf", "b.pdf", 940, 2⟩, ⟨"/w/a.pdf", "a.pdf", 1000, 2⟩)
      (by decide),
    h.2 ⟨"/w/c.pdf", "c.pdf", 600, 2⟩ [] ∅ (by decide)⟩

/-- Witness for C6: in the merged pair of the two fresh files, the front
(mtime 940) is older than the back (mtime 1000). -/
theorem merged_front_not_newer_than_back_witness :
    ((⟨"/w/b.pdf", "b.pdf", 940, 2⟩ : ScanFile),
      (⟨"/w/a.pdf", "a.pdf", 1000, 2⟩ : ScanFile)).1.mtime ≤
    ((⟨"/w/b.pdf", "b.pdf", 940, 2⟩ : ScanFile),
      (⟨"/w/a.pdf", "a.pdf", 1000, 2⟩ : ScanFile)).2.mtime :=
  merged_front_not_newer_than_back (fun _ _ => true) 1060
    [⟨"/w/b.pdf", "b.pdf", 940, 2⟩, ⟨"/w/a.pdf", "a.pdf", 1000, 2⟩] ∅
    (⟨"/w/b.pdf", "b.pdf", 940, 2⟩, ⟨"/w/a.pdf", "a.pdf", 1000, 2⟩) (by decide)

/-- Witness for C10: two files with identical mtime 1000; the scan-order
latest becomes front, the candidate back. -/
theorem equal_mtime_front_is_latest_witness :
    ((⟨"/w/e.pdf", "e.pdf", 1000, 2⟩ : ScanFile),
      (⟨"/w/a.pdf", "a.pdf", 1000, 2⟩ : ScanFile)).1 =
        ⟨"/w/e.pdf", "e.pdf", 1000, 2⟩ ∧
    ((⟨"/w/e.pdf", "e.pdf", 1000, 2⟩ : ScanFile),
      (⟨"/w/a.pdf", "a.pdf", 1000, 2⟩ : ScanFile)).2 ∈
        [(⟨"/w/a.pdf", "a.pdf", 1000, 2⟩ : ScanFile)] :=
  equal_mtime_front_is_latest (fun _ _ => true) 1060
    [⟨"/w/e.pdf", "e.pdf", 1000, 2⟩, ⟨"/w/a.pdf", "a.pdf", 1000, 2⟩] ∅
    ⟨"/w/e.pdf", "e.pdf", 1000, 2⟩ [⟨"/w/a.pdf", "a.pdf", 1000, 2⟩] (by decide)
    (⟨"/w/e.pdf", "e.pdf", 1000, 2⟩, ⟨"/w/a.pdf", "a.pdf", 1000, 2⟩) (by decide)
    (by decide)

end ReTurnScan
